import Mathlib

/-!
Verification development for the tab-chain-django game backend.

We shallowly embed the core of the repository in Lean:
* `game/ai_client.py` — the JSON response normalizer
  (`_parse_result_and_explanation_from_field`, `_extract_model_text`,
  `_parse_model_text_response`, the decision pipeline in `get_ai_decision`)
  and the circuit breaker (`_is_circuit_open`, `_record_failure`,
  `_record_success`) together with the retry loop of `get_ai_decision`.
* `game/views.py` — the move endpoint (`MoveAPIView.post`), the end-session
  endpoint (`EndSessionAPIView.post`), the current-session endpoint
  (`CurrentSessionAPIView.get`) and the leaderboard endpoint
  (`LeaderboardTopView.get`), over an explicit relational state mirroring
  the Django models of `game/models.py` (GameSession, ChainEntry, Score).

Machine integers do not occur (all counters are unbounded Python ints);
timestamps are modelled as natural-number clock ticks of a monotonic clock.
-/

namespace TabChain

/-- Python/JSON values as produced by `json.loads`.  Numbers keep their
literal text: the embedding only ever needs to consume them, test their
truthiness and render them back, never to compute with them. -/
inductive Json where
  | null : Json
  | bool : Bool → Json
  | num : String → Json
  | str : String → Json
  | arr : List Json → Json
  | obj : List (String × Json) → Json

/-- JSON whitespace accepted between tokens by `json.loads`. -/
def isJsonWs (c : Char) : Bool :=
  c = ' ' || c = '\t' || c = '\n' || c = '\r'

def lbrace : Char := Char.ofNat 123

def rbrace : Char := Char.ofNat 125

/-- Value of a hex digit, as used by `\uXXXX` escapes. -/
def hexVal (c : Char) : Option Nat :=
  if '0' ≤ c ∧ c ≤ '9' then some (c.toNat - 48)
  else if 'a' ≤ c ∧ c ≤ 'f' then some (c.toNat - 87)
  else if 'A' ≤ c ∧ c ≤ 'F' then some (c.toNat - 55)
  else none

/-- Parse the body of a JSON string (the opening quote already consumed),
returning the decoded characters and the remaining input.  Mirrors the
strict `json.loads` string grammar: the standard escapes, `\uXXXX`, and a
ban on raw control characters.  Fuel-indexed (any fuel above the input
length behaves identically); every recursive call consumes at least one
input character. -/
def parseStringChars : Nat → List Char → Option (List Char × List Char)
  | 0, _ => none
  | _ + 1, [] => none
  | f + 1, c :: rest =>
    if c = '"' then some ([], rest)
    else if c = '\\' then
      match rest with
      | [] => none
      | e :: rest2 =>
        if e = '"' then (parseStringChars f rest2).map (fun p => ('"' :: p.1, p.2))
        else if e = '\\' then (parseStringChars f rest2).map (fun p => ('\\' :: p.1, p.2))
        else if e = '/' then (parseStringChars f rest2).map (fun p => ('/' :: p.1, p.2))
        else if e = 'b' then (parseStringChars f rest2).map (fun p => (Char.ofNat 8 :: p.1, p.2))
        else if e = 'f' then (parseStringChars f rest2).map (fun p => (Char.ofNat 12 :: p.1, p.2))
        else if e = 'n' then (parseStringChars f rest2).map (fun p => ('\n' :: p.1, p.2))
        else if e = 'r' then (parseStringChars f rest2).map (fun p => ('\r' :: p.1, p.2))
        else if e = 't' then (parseStringChars f rest2).map (fun p => ('\t' :: p.1, p.2))
        else if e = 'u' then
          match rest2 with
          | a :: b :: c2 :: d :: rest3 =>
            match hexVal a, hexVal b, hexVal c2, hexVal d with
            | some ha, some hb, some hc, some hd =>
              (parseStringChars f rest3).map
                (fun p => (Char.ofNat (((ha * 16 + hb) * 16 + hc) * 16 + hd) :: p.1, p.2))
            | _, _, _, _ => none
          | _ => none
        else none
    else if c.toNat < 32 then none
    else (parseStringChars f rest).map (fun p => (c :: p.1, p.2))

/-- Parse a JSON number literal `-?(0|[1-9][0-9]*)(\.[0-9]+)?([eE][+-]?[0-9]+)?`,
returning its literal text and the remaining input. -/
def parseNumber (cs : List Char) : Option (String × List Char) :=
  let signed : Bool × List Char :=
    match cs with
    | '-' :: r => (true, r)
    | _ => (false, cs)
  match signed.2 with
  | [] => none
  | c :: r =>
    let intDone : Option (List Char × List Char) :=
      if c = '0' then some (['0'], r)
      else if c.isDigit then
        let p := r.span Char.isDigit
        some (c :: p.1, p.2)
      else none
    match intDone with
    | none => none
    | some (ipart, r0) =>
      let fracDone : Option (List Char × List Char) :=
        match r0 with
        | '.' :: r1 =>
          let p := r1.span Char.isDigit
          if p.1.isEmpty then none else some ('.' :: p.1, p.2)
        | _ => some ([], r0)
      match fracDone with
      | none => none
      | some (fpart, r2) =>
        let expDone : Option (List Char × List Char) :=
          match r2 with
          | e :: r3 =>
            if e = 'e' ∨ e = 'E' then
              let signPart : List Char × List Char :=
                match r3 with
                | s :: r4 => if s = '+' ∨ s = '-' then ([s], r4) else ([], r3)
                | [] => ([], r3)
              let p := signPart.2.span Char.isDigit
              if p.1.isEmpty then none else some (e :: signPart.1 ++ p.1, p.2)
            else some ([], r2)
          | [] => some ([], r2)
        match expDone with
        | none => none
        | some (epart, r5) =>
          some (String.mk ((if signed.1 then ['-'] else []) ++ ipart ++ fpart ++ epart), r5)

/-- Python-dict insertion: a repeated key keeps its first position but takes
the latest value (`json.loads` duplicate-key behaviour). -/
def dictInsert (m : List (String × Json)) (k : String) (v : Json) : List (String × Json) :=
  if m.any (fun p => p.1 = k) then m.map (fun p => if p.1 = k then (k, v) else p)
  else m ++ [(k, v)]

mutual

/-- Fuel-indexed recursive-descent JSON value parser (mirrors `json.loads`). -/
def parseVal : Nat → List Char → Option (Json × List Char)
  | 0, _ => none
  | Nat.succ f, cs0 =>
    let cs := cs0.dropWhile isJsonWs
    match cs with
    | [] => none
    | c :: rest =>
      if c = '"' then
        (parseStringChars (rest.length + 1) rest).map (fun p => (Json.str (String.mk p.1), p.2))
      else if c = lbrace then
        let inner := rest.dropWhile isJsonWs
        match inner with
        | c2 :: r2 => if c2 = rbrace then some (Json.obj [], r2) else parseMembers f rest []
        | [] => none
      else if c = '[' then
        let inner := rest.dropWhile isJsonWs
        match inner with
        | ']' :: r2 => some (Json.arr [], r2)
        | _ => parseItems f rest []
      else
        match cs with
        | 't' :: 'r' :: 'u' :: 'e' :: r => some (Json.bool true, r)
        | 'f' :: 'a' :: 'l' :: 's' :: 'e' :: r => some (Json.bool false, r)
        | 'n' :: 'u' :: 'l' :: 'l' :: r => some (Json.null, r)
        | _ => (parseNumber cs).map (fun p => (Json.num p.1, p.2))

/-- Parse `"key": value (, "key": value)* RBRACE` after an opening brace. -/
def parseMembers : Nat → List Char → List (String × Json) → Option (Json × List Char)
  | 0, _, _ => none
  | Nat.succ f, cs0, acc =>
    let cs := cs0.dropWhile isJsonWs
    match cs with
    | [] => none
    | c :: rest =>
      if c = '"' then
        match parseStringChars (rest.length + 1) rest with
        | none => none
        | some (kchars, r1) =>
          match r1.dropWhile isJsonWs with
          | ':' :: r3 =>
            match parseVal f r3 with
            | none => none
            | some (v, r4) =>
              let acc2 := dictInsert acc (String.mk kchars) v
              match r4.dropWhile isJsonWs with
              | ',' :: r6 => parseMembers f r6 acc2
              | c2 :: r7 => if c2 = rbrace then some (Json.obj acc2, r7) else none
              | [] => none
          | _ => none
      else none

/-- Parse `value (, value)* ]` after an opening bracket. -/
def parseItems : Nat → List Char → List Json → Option (Json × List Char)
  | 0, _, _ => none
  | Nat.succ f, cs0, acc =>
    match parseVal f cs0 with
    | none => none
    | some (v, r1) =>
      match r1.dropWhile isJsonWs with
      | ',' :: r3 => parseItems f r3 (acc ++ [v])
      | ']' :: r4 => some (Json.arr (acc ++ [v]), r4)
      | _ => none

end

/-- `json.loads`: parse a complete JSON document; trailing non-whitespace is
an error ("Extra data"). -/
def jsonLoads (s : String) : Option Json :=
  match parseVal (2 * s.length + 2) s.data with
  | some (v, rest) => if (rest.dropWhile isJsonWs).isEmpty then some v else none
  | none => none

/-! ## Response normalizer (`game/ai_client.py`) -/

/-- Lowercase a string character-wise (Python `str.lower()` on ASCII input). -/
def strLower (s : String) : String := String.mk (s.data.map Char.toLower)

/-- Python `str.strip()` on a character list: drop leading and trailing
whitespace (Python additionally strips `\v`/`\f`, which never occur in the
flows under study). -/
def stripChars (cs : List Char) : List Char :=
  (((cs.dropWhile Char.isWhitespace).reverse).dropWhile Char.isWhitespace).reverse

/-- Python `str.strip()`. -/
def pyStrip (s : String) : String := String.mk (stripChars s.data)

/-- A regex word character, for the `\b` boundary after the boolean token. -/
def isWordChar (c : Char) : Bool := c.isAlphanum || c = '_'

/-- Case-insensitively consume `tok` (given lowercase) from the front of
`cs`; return the remaining input on success. -/
def ciPrefix : List Char → List Char → Option (List Char)
  | [], cs => some cs
  | _ :: _, [] => none
  | t :: ts, c :: cs => if c.toLower = t then ciPrefix ts cs else none

/-- The boolean-token alternatives of `_RESULT_EXPLANATION_RE`, in the
regex's alternation order. -/
def boolTokens : List String := ["true", "false", "yes", "no", "1", "0"]

/-- `\b` holds after the token: end of input or a non-word character. -/
def boundaryOk (rest : List Char) : Bool :=
  match rest with
  | [] => true
  | c :: _ => !isWordChar c

/-- Ordered-alternation match of one boolean token followed by a `\b`
boundary (regex backtracks to the next alternative when the boundary
fails). -/
def matchBoolToken : List String → List Char → Option (String × List Char)
  | [], _ => none
  | t :: ts, cs =>
    match ciPrefix t.data cs with
    | some rest => if boundaryOk rest then some (t, rest) else matchBoolToken ts cs
    | none => matchBoolToken ts cs

/-- `_RESULT_EXPLANATION_RE.match` on an already-stripped string:
`^\s*(true|false|yes|no|1|0)\b\s*[-:]\s*(.+)$` with `re.I`.  Because the
input is pre-stripped, the `(.+)$` group matches exactly the nonempty
remainder provided it contains no newline (`.` does not match `\n` and
there is no trailing newline to absorb into `$`). -/
def resultExplanationMatch (s : String) : Option (Bool × String) :=
  let cs := s.data.dropWhile Char.isWhitespace
  match matchBoolToken boolTokens cs with
  | none => none
  | some (t, rest) =>
    let rest1 := rest.dropWhile Char.isWhitespace
    match rest1 with
    | [] => none
    | c :: rest2 =>
      if c = '-' || c = ':' then
        let rest3 := rest2.dropWhile Char.isWhitespace
        if rest3.isEmpty || rest3.contains '\n' then none
        else some (t = "true" ∨ t = "yes" ∨ t = "1", pyStrip (String.mk rest3))
      else none

/-- `_parse_result_and_explanation_from_field`: parse `"true - because X"`
style strings; token alone is also accepted; otherwise `ValueError`. -/
def parse_result_and_explanation_from_field (value : Json) : Except String (Bool × String) :=
  match value with
  | Json.str raw =>
    let v := pyStrip raw
    match resultExplanationMatch v with
    | some r => Except.ok r
    | none =>
      let lower := strLower v
      if lower = "true" ∨ lower = "yes" ∨ lower = "1" then Except.ok (true, "")
      else if lower = "false" ∨ lower = "no" ∨ lower = "0" then Except.ok (false, "")
      else Except.error "cannot parse boolean/explanation from results field"
  | _ => Except.error "results field is not a string"

/-- `_extract_model_text`: best-effort extraction of the judge's text from
the wrapper object.  Returns the raw extracted value (the code can return a
non-string via the `first.get("text")` branch; `none` models the Python
`None` that later raises `ValueError`). -/
def extract_model_text (outer : List (String × Json)) : Option Json :=
  let tryKey : String → Option Json := fun k =>
    match outer.lookup k with
    | some (Json.str s) =>
      if (pyStrip s).isEmpty then
        none
      else
        some (Json.str s)
    | some (Json.arr (first :: _)) =>
      match first with
      | Json.str s => some (Json.str s)
      | Json.obj m =>
        match m.lookup "text" with
        | some v => some v
        | none => none
      | _ => none
    | _ => none
  match tryKey "response" with
  | some v => some v
  | none =>
    match tryKey "text" with
    | some v => some v
    | none =>
      match tryKey "output" with
      | some v => some v
      | none =>
        match outer.lookup "results" with
        | some (Json.str s) => some (Json.str s)
        | _ => none

/-- Find the index of the first occurrence of `c` in `cs` (Python
`str.find`), if any. -/
def firstIdx (cs : List Char) (c : Char) : Option Nat :=
  match cs with
  | [] => none
  | x :: xs => if x = c then some 0 else (firstIdx xs c).map (· + 1)

/-- Index of the last occurrence of `c` in `cs` (Python `str.rfind`). -/
def lastIdx (cs : List Char) (c : Char) : Option Nat :=
  match cs with
  | [] => none
  | x :: xs =>
    match lastIdx xs c with
    | some i => some (i + 1)
    | none => if x = c then some 0 else none

/-- `_parse_model_text_response` on a string: direct JSON, else the first
`{...}` slice, else wrap the stripped text under the `results` key. -/
def parse_model_text_response_str (text : String) : List (String × Json) :=
  let s := pyStrip text
  match jsonLoads s with
  | some (Json.obj m) => m
  | _ =>
    let sub : Option (List (String × Json)) :=
      match firstIdx s.data lbrace, lastIdx s.data rbrace with
      | some st, some en =>
        if st < en then
          match jsonLoads (String.mk ((s.data.drop st).take (en + 1 - st))) with
          | some (Json.obj m) => some m
          | _ => none
        else none
      | _, _ => none
    match sub with
    | some m => m
    | none => [("results", Json.str s)]

/-- Python truthiness of a JSON value (`bool(v)`).  A number is falsy iff
its mantissa has no nonzero digit. -/
def pyTruthy : Json → Bool
  | Json.null => false
  | Json.bool b => b
  | Json.str s => !s.isEmpty
  | Json.num lit =>
    let mantissa := lit.data.takeWhile (fun c => c ≠ 'e' ∧ c ≠ 'E')
    !(mantissa.all (fun c => c = '0' ∨ c = '.' ∨ c = '-' ∨ c = '+'))
  | Json.arr l => !l.isEmpty
  | Json.obj m => !m.isEmpty

/-- Python `a or b`. -/
def pyOr (a b : Json) : Json := if pyTruthy a then a else b

mutual

/-- Python `repr` of a JSON value (used by `str` inside containers). -/
def pyRepr : Json → String
  | Json.null => "None"
  | Json.bool true => "True"
  | Json.bool false => "False"
  | Json.num lit => lit
  | Json.str s => "'" ++ s ++ "'"
  | Json.arr l => "[" ++ pyReprItems l ++ "]"
  | Json.obj m => "\x7b" ++ pyReprMembers m ++ "\x7d"

def pyReprItems : List Json → String
  | [] => ""
  | [x] => pyRepr x
  | x :: y :: rest => pyRepr x ++ ", " ++ pyReprItems (y :: rest)

def pyReprMembers : List (String × Json) → String
  | [] => ""
  | [p] => "'" ++ p.1 ++ "': " ++ pyRepr p.2
  | p :: y :: rest => "'" ++ p.1 ++ "': " ++ pyRepr p.2 ++ ", " ++ pyReprMembers (y :: rest)

end

/-- Python `str(v)`. -/
def pyStr : Json → String
  | Json.str s => s
  | v => pyRepr v

/-- `str(parsed.get("message") or parsed.get("explanation") or "")`. -/
def messageField (parsed : List (String × Json)) : String :=
  pyStr (pyOr ((parsed.lookup "message").getD Json.null)
    (pyOr ((parsed.lookup "explanation").getD Json.null) (Json.str "")))

/-- The normalized decision (`AIResponse` of `ai_client.py`): every outcome
of `get_ai_decision` — genuine verdicts, parse fallbacks and all error
cases alike — is reported in this single shape. -/
structure AIResp where
  result : Bool
  message : String
deriving DecidableEq, Repr

/-- The verdict-extraction pipeline of `get_ai_decision` (lines 249–289),
applied to the parsed model output; `modelText` is the extracted raw text
used by the final lenient fallback.  This function is total: every
`ValueError` raised inside it is caught and falls through to the next
strategy. -/
def decision_from_parsed (modelText : String) (parsed : List (String × Json)) : AIResp :=
  let step1 : Option AIResp :=
    match parsed.lookup "results" with
    | some v =>
      match parse_result_and_explanation_from_field v with
      | Except.ok (b, e) => some ⟨b, e⟩
      | Except.error _ => none
    | none => none
  match step1 with
  | some r => r
  | none =>
    let step2 : Option AIResp :=
      match parsed.lookup "result" with
      | some (Json.bool b) => some ⟨b, messageField parsed⟩
      | some (Json.str raw) =>
        match parse_result_and_explanation_from_field (Json.str (raw ++ " - ")) with
        | Except.ok (b, _) => some ⟨b, messageField parsed⟩
        | Except.error _ => none
      | _ => none
    match step2 with
    | some r => r
    | none =>
      let step3 : Option AIResp :=
        match parsed with
        | [(_, Json.str only)] =>
          match parse_result_and_explanation_from_field (Json.str only) with
          | Except.ok (b, e) => some ⟨b, e⟩
          | Except.error _ => none
        | _ => none
      match step3 with
      | some r => r
      | none => ⟨true, modelText⟩

/-- Normalize an extracted model text string: parse it and run the verdict
pipeline (the success path of `get_ai_decision` after text extraction). -/
def normalizeModelText (modelText : String) : AIResp :=
  decision_from_parsed modelText (parse_model_text_response_str modelText)

/-! ## Circuit breaker and retry loop (`game/ai_client.py`) -/

/-- The module-level breaker state `_failure_count` / `_last_failure_monotonic`
(monotonic-clock ticks as naturals). -/
structure Breaker where
  count : Nat
  lastFailure : Nat
deriving DecidableEq, Repr

/-- The configuration read from Django settings by `ai_client.py`
(defaults: threshold 6, cooldown 30, retry attempts 3). -/
structure AIConfig where
  threshold : Nat
  cooldown : Nat
  retryAttempts : Nat
  baseUrlSet : Bool
deriving DecidableEq, Repr

/-- `_is_circuit_open`: closed below the threshold; at or above it, open
unless the cooldown has strictly elapsed, in which case the counter resets
to zero (half-open-by-reset).  Returns the possibly-reset state. -/
def is_circuit_open (now : Nat) (cfg : AIConfig) (b : Breaker) : Bool × Breaker :=
  if b.count < cfg.threshold then (false, b)
  else if now - b.lastFailure > cfg.cooldown then (false, { b with count := 0 })
  else (true, b)

/-- `_record_failure`. -/
def record_failure (now : Nat) (b : Breaker) : Breaker :=
  { count := b.count + 1, lastFailure := now }

/-- `_record_success` (only the counter is reset). -/
def record_success (b : Breaker) : Breaker :=
  { b with count := 0 }

/-- Transport-level outcome of one `client.post` attempt, the oracle for the
retry loop.  `ok outer` is an HTTP 2xx reply whose wrapper body parsed to
`outer` (the non-JSON-wrapper fallback of lines 234–238 corresponds to
`ok (Json.obj [("response", Json.str raw)])`). -/
inductive Attempt where
  | ok : Json → Attempt
  | httpStatus : Nat → Option String → Attempt
  | netError : Attempt
  | unexpected : Attempt

/-- The retry loop of `get_ai_decision` (lines 222–344).  Sleeps and backoff
delays have no observable effect in this embedding and are dropped; the
`Nat` component counts network attempts actually made.  A 2xx reply records
a success immediately (line 228); a wrapper that is not a JSON object makes
`_extract_model_text` raise `AttributeError`, caught by the generic handler
(record failure, retry); a missing or non-string model text raises
`ValueError` (record failure, return an invalid-response error without
retrying). -/
def aiLoop (cfg : AIConfig) (now : Nat) :
    Nat → List Attempt → Breaker → AIResp × Breaker × Nat
  | 0, _, b => (⟨false, "AI service unreachable"⟩, b, 0)
  | Nat.succ f, attempts, b =>
    match attempts with
    | [] => (⟨false, "AI service unreachable"⟩, b, 0)
    | a :: rest =>
      match a with
      | Attempt.ok outer =>
        let b1 := record_success b
        match outer with
        | Json.obj members =>
          match extract_model_text members with
          | none =>
            (⟨false, "Invalid model response: no model text found in response wrapper"⟩,
              record_failure now b1, 1)
          | some (Json.str s) =>
            (decision_from_parsed s (parse_model_text_response_str s), b1, 1)
          | some _ =>
            (⟨false, "Invalid model response: model text is not a string"⟩,
              record_failure now b1, 1)
        | _ =>
          let r := aiLoop cfg now f rest (record_failure now b1)
          (r.1, r.2.1, r.2.2 + 1)
      | Attempt.httpStatus status _retryAfter =>
        if status = 429 then
          let r := aiLoop cfg now f rest (record_failure now b)
          (r.1, r.2.1, r.2.2 + 1)
        else if 500 ≤ status ∧ status < 600 then
          let r := aiLoop cfg now f rest (record_failure now b)
          (r.1, r.2.1, r.2.2 + 1)
        else
          (⟨false, "AI HTTP error: " ++ toString status⟩, record_failure now b, 1)
      | Attempt.netError =>
        let r := aiLoop cfg now f rest (record_failure now b)
        (r.1, r.2.1, r.2.2 + 1)
      | Attempt.unexpected =>
        let r := aiLoop cfg now f rest (record_failure now b)
        (r.1, r.2.1, r.2.2 + 1)

/-- `get_ai_decision`: gate on the circuit breaker, then on configuration,
then run the bounded retry loop.  Returns the decision, the final breaker
state and the number of network attempts made. -/
def get_ai_decision (cfg : AIConfig) (now : Nat) (b : Breaker)
    (attempts : List Attempt) : AIResp × Breaker × Nat :=
  let gate := is_circuit_open now cfg b
  if gate.1 then (⟨false, "AI service temporarily unavailable"⟩, gate.2, 0)
  else if !cfg.baseUrlSet then (⟨false, "AI service not configured"⟩, gate.2, 0)
  else aiLoop cfg now cfg.retryAttempts attempts gate.2

/-! ## Data model and views (`game/models.py`, `game/views.py`) -/

/-- A `GameSession` row (UUIDs modelled as naturals; the nullable `user`
foreign key is always set by the flows under study). -/
structure Session where
  id : Nat
  userId : Nat
  active : Bool
  endedAt : Option Nat
  createdAt : Nat
  updatedAt : Nat
deriving DecidableEq, Repr

/-- A `ChainEntry` row: `(session, position, value)` with 1-based positions. -/
structure ChainEntry where
  sessionId : Nat
  position : Nat
  value : String
deriving DecidableEq, Repr

/-- A `Score` row: `(user, session-or-null, points)`. -/
structure ScoreRow where
  userId : Nat
  sessionId : Option Nat
  points : Nat
deriving DecidableEq, Repr

/-- The relational store plus the request clock (`timezone.now()` ticks) and
a fresh-id supply for created sessions. -/
structure DB where
  sessions : List Session
  entries : List ChainEntry
  scores : List ScoreRow
  nextId : Nat
  now : Nat
deriving DecidableEq, Repr

/-- `GameSession.objects.get(id=sid, user=user)`. -/
def findSession (db : DB) (sid uid : Nat) : Option Session :=
  db.sessions.find? (fun s => s.id == sid && s.userId == uid)

/-- `ChainEntry.objects.filter(session=s)`, in insertion order. -/
def entriesOf (db : DB) (sid : Nat) : List ChainEntry :=
  db.entries.filter (fun e => e.sessionId == sid)

/-- The positions of a session's chain entries, in insertion order. -/
def posList (db : DB) (sid : Nat) : List Nat :=
  (entriesOf db sid).map (fun e => e.position)

/-- `ChainEntry.objects.filter(session=s).count()`. -/
def countEntries (db : DB) (sid : Nat) : Nat :=
  (entriesOf db sid).length

/-- `aggregate(Max(...))`: `none` on an empty query set. -/
def aggMax : List Nat → Option Nat
  | [] => none
  | x :: xs =>
    match aggMax xs with
    | none => some x
    | some m => some (max x m)

/-- Python `value or 0` applied to an optional aggregate. -/
def pyOr0 : Option Nat → Nat
  | none => 0
  | some v => if v = 0 then 0 else v

/-- `...aggregate(Max("position"))["position__max"] or 0`. -/
def maxPos (db : DB) (sid : Nat) : Nat :=
  pyOr0 (aggMax (posList db sid))

/-- `Score.objects.filter(user=u).aggregate(Max("points"))["points__max"] or 0`. -/
def bestScore (db : DB) (uid : Nat) : Nat :=
  pyOr0 (aggMax ((db.scores.filter (fun r => r.userId == uid)).map (fun r => r.points)))

/-- `Score.objects.filter(user=u, session=s)`. -/
def scoresFor (db : DB) (uid sid : Nat) : List ScoreRow :=
  db.scores.filter (fun r => r.userId == uid && r.sessionId == some sid)

/-- Apply `f` to the session row with id `sid` (a `session.save(...)`). -/
def updateSession (db : DB) (sid : Nat) (f : Session → Session) : DB :=
  { db with sessions := db.sessions.map (fun s => if s.id = sid then f s else s) }

/-- `MoveSerializer` validation of the `move` field: DRF `CharField`
(required, whitespace-trimmed, non-blank, `max_length=64`).  No check
against the three canonical move tokens exists in the serializer or the
view.  Returns the validated (trimmed) value. -/
def validateMove (raw : String) : Option String :=
  let m := pyStrip raw
  if m.isEmpty then none
  else if m.length > 64 then none
  else some m

/-- A `/play` request body after field typing: the `chain` field is accepted
by the serializer but never read by the view, so it is omitted. -/
structure MoveRequest where
  move : String
  sessionId : Option Nat
deriving DecidableEq, Repr

/-- What `get_ai_decision` did for this request: `raise` covers any
exception escaping the call (the view's `except Exception` branch), and
`resp` is its returned `{"result": bool, "message": str}` dictionary. -/
inductive AIOutcome where
  | raise : AIOutcome
  | resp : Bool → String → AIOutcome
deriving DecidableEq, Repr

/-- Result of `MoveAPIView.post` as seen by the caller. -/
inductive MoveResult where
  | invalid : MoveResult
  | notFound : MoveResult
  | alreadyEnded : MoveResult
  | aiError : MoveResult
  | accepted : Nat → Nat → String → MoveResult
  | lost : Nat → Nat → Nat → String → MoveResult
deriving DecidableEq, Repr

/-- The body of `MoveAPIView.post` after the session has been resolved
(views.py lines 52–119): compute `next_pos` while the row is locked,
consult the judge, then append the submitted move unconditionally (winning
or losing), bump `updated_at`, and on a falsy `result` finalize the session
and write one Score snapshot with
`points = ChainEntry.objects.filter(session=session).count()`, i.e. the
chain length *including* the just-appended losing move. -/
def proceedMove (db1 : DB) (uid : Nat) (s : Session) (move : String) (ai : AIOutcome) :
    DB × MoveResult :=
  let nextPos := maxPos db1 s.id + 1
  match ai with
  | AIOutcome.raise => (db1, MoveResult.aiError)
  | AIOutcome.resp result message =>
    let db2 : DB :=
      { db1 with entries := db1.entries ++ [{ sessionId := s.id, position := nextPos, value := move }] }
    let db3 := updateSession db2 s.id (fun t => { t with updatedAt := db1.now })
    let currentScore := countEntries db3 s.id
    if result then
      (db3, MoveResult.accepted currentScore s.id message)
    else
      let db4 := updateSession db3 s.id
        (fun t => { t with active := false, endedAt := some db1.now, updatedAt := db1.now })
      let finalScore := currentScore
      let db5 : DB :=
        { db4 with scores := db4.scores ++ [{ userId := uid, sessionId := some s.id, points := finalScore }] }
      (db5, MoveResult.lost finalScore (bestScore db5 uid) s.id message)

/-- `MoveAPIView.post` (views.py lines 32–119).  Serializer validation
first; a missing/null session id creates a session together with a seed
`ChainEntry(position=1, value="rock")`; a supplied session id must resolve
to a session of the caller that is still active.  The transaction commits
on every `return Response(...)` path, so a session created before a caught
judge exception persists. -/
def movePost (db : DB) (uid : Nat) (req : MoveRequest) (ai : AIOutcome) :
    DB × MoveResult :=
  match validateMove req.move with
  | none => (db, MoveResult.invalid)
  | some move =>
    match req.sessionId with
    | some sid =>
      match findSession db sid uid with
      | none => (db, MoveResult.notFound)
      | some s =>
        if s.active = false then (db, MoveResult.alreadyEnded)
        else proceedMove db uid s move ai
    | none =>
      let s : Session :=
        { id := db.nextId, userId := uid, active := true, endedAt := none
          createdAt := db.now, updatedAt := db.now }
      let db1 : DB :=
        { db with
          sessions := db.sessions ++ [s]
          entries := db.entries ++ [{ sessionId := s.id, position := 1, value := "rock" }]
          nextId := db.nextId + 1 }
      proceedMove db1 uid s move ai

/-- Result of `EndSessionAPIView.post`. -/
inductive EndResult where
  | notFound : EndResult
  | ended : Nat → Nat → Nat → String → EndResult
deriving DecidableEq, Repr

/-- The final score carried by an `EndResult`. -/
def EndResult.finalScore : EndResult → Option Nat
  | EndResult.ended _ f _ _ => some f
  | EndResult.notFound => none

/-- The active branch of `EndSessionAPIView.post`: mark the session ended
and write the Score snapshot once. -/
def endActiveBranch (db : DB) (uid sid : Nat) : DB × EndResult :=
  let cnt := countEntries db sid
  let db1 := updateSession db sid
    (fun t => { t with active := false, endedAt := some db.now, updatedAt := db.now })
  let db2 : DB :=
    { db1 with scores := db1.scores ++ [{ userId := uid, sessionId := some sid, points := cnt }] }
  (db2, EndResult.ended sid cnt (bestScore db2 uid) "Session ended")

/-- The already-ended branch of `EndSessionAPIView.post`: read-only; the
stored snapshot's max points is returned, falling back to the chain count
when that aggregate is falsy (`stored["points__max"] or final_score`). -/
def endEndedBranch (db : DB) (uid sid : Nat) (s : Session) : DB × EndResult :=
  let cnt := countEntries db sid
  let stored := aggMax ((scoresFor db uid sid).map (fun r => r.points))
  let finalScore :=
    match stored with
    | none => cnt
    | some p => if p = 0 then cnt else p
  let msg := if s.endedAt.isSome then "Session ended" else "Session already ended"
  (db, EndResult.ended sid finalScore (bestScore db uid) msg)

/-- `EndSessionAPIView.post` (views.py lines 129–170), after UUID syntax
validation. -/
def endSessionPost (db : DB) (uid sid : Nat) : DB × EndResult :=
  match findSession db sid uid with
  | none => (db, EndResult.notFound)
  | some s =>
    if s.active then endActiveBranch db uid sid
    else endEndedBranch db uid sid s

/-- Response of `CurrentSessionAPIView.get`. -/
structure CurrentResult where
  sessionId : Option Nat
  chain : List String
  score : Nat
  best : Nat
deriving DecidableEq, Repr

/-- Insertion sort of chain entries by position (`order_by("position")`). -/
def insertByPos (e : ChainEntry) : List ChainEntry → List ChainEntry
  | [] => [e]
  | x :: xs => if e.position ≤ x.position then e :: x :: xs else x :: insertByPos e xs

def sortByPos : List ChainEntry → List ChainEntry
  | [] => []
  | x :: xs => insertByPos x (sortByPos xs)

/-- `filter(user, active=True).order_by('-created_at').first()`. -/
def latestActive (db : DB) (uid : Nat) : Option Session :=
  let l := db.sessions.filter (fun s => s.userId == uid && s.active)
  match aggMax (l.map (fun s => s.createdAt)) with
  | none => none
  | some m => l.find? (fun s => s.createdAt == m)

/-- `CurrentSessionAPIView.get` (views.py lines 209–247): the most recent
active session's ordered chain with `score = len(chain)`, or the default
`(null, ["Rock"], 0)` state; `best_score` is the user's Score maximum or 0. -/
def currentSessionGet (db : DB) (uid : Nat) : CurrentResult :=
  match latestActive db uid with
  | some s =>
    let chain := (sortByPos (entriesOf db s.id)).map (fun e => e.value)
    { sessionId := some s.id, chain := chain, score := chain.length, best := bestScore db uid }
  | none =>
    { sessionId := none, chain := ["Rock"], score := 0, best := bestScore db uid }

/-- `LeaderboardTopView.get` (views.py lines 177–194).  The handler's first
statement calls `safe_int`, a name that is neither defined nor imported
anywhere in `game/views.py` (or the repository), so every request raises
`NameError` before any query runs; independently, the queryset annotation
`Max("score__points")` names a nonexistent reverse relation — the `Score.user`
foreign key sets `related_name="scores"` — and would raise `FieldError`.
The arguments are kept to document the intended signature. -/
def leaderboardTopGet (_limitParam : Option String) (_db : DB) :
    Except String (List (Nat × Nat × Nat)) :=
  Except.error "NameError: name 'safe_int' is not defined"

/-! ## Helper lemmas -/

theorem findSession_updateSession (db : DB) (sid uid : Nat) (f : Session → Session)
    (s : Session)
    (hid : ∀ t, (f t).id = t.id) (huid : ∀ t, (f t).userId = t.userId)
    (h : findSession db sid uid = some s) :
    findSession (updateSession db sid f) sid uid = some (f s) := by
  have hp := List.find?_some h
  simp only [Bool.and_eq_true, beq_iff_eq] at hp
  unfold findSession updateSession
  simp only
  rw [List.find?_map]
  have hpg : ((fun t : Session => t.id == sid && t.userId == uid) ∘
      (fun t => if t.id = sid then f t else t)) =
      (fun t : Session => t.id == sid && t.userId == uid) := by
    funext t
    by_cases ht : t.id = sid <;> simp [ht, hid, huid]
  rw [hpg]
  unfold findSession at h
  rw [h]
  simp [hp.1]

theorem entriesOf_updateSession (db : DB) (sid : Nat) (f : Session → Session) (sid' : Nat) :
    entriesOf (updateSession db sid f) sid' = entriesOf db sid' := rfl

theorem entriesOf_append (db : DB) (e : ChainEntry) (sid : Nat) (h : e.sessionId = sid) :
    entriesOf { db with entries := db.entries ++ [e] } sid = entriesOf db sid ++ [e] := by
  unfold entriesOf
  simp [List.filter_append, h]

theorem posList_append (db : DB) (e : ChainEntry) (sid : Nat) (h : e.sessionId = sid) :
    posList { db with entries := db.entries ++ [e] } sid = posList db sid ++ [e.position] := by
  unfold posList
  rw [entriesOf_append db e sid h]
  simp

theorem countEntries_eq_length_posList (db : DB) (sid : Nat) :
    countEntries db sid = (posList db sid).length := by
  unfold countEntries posList
  rw [List.length_map]

theorem countEntries_append (db : DB) (e : ChainEntry) (sid : Nat) (h : e.sessionId = sid) :
    countEntries { db with entries := db.entries ++ [e] } sid = countEntries db sid + 1 := by
  unfold countEntries
  rw [entriesOf_append db e sid h, List.length_append]
  rfl

theorem aggMax_cons (x : Nat) (xs : List Nat) :
    aggMax (x :: xs) =
      match aggMax xs with
      | none => some x
      | some m => some (max x m) := rfl

theorem aggMax_range' (a n : Nat) :
    aggMax (List.range' a n) = if n = 0 then none else some (a + n - 1) := by
  induction n generalizing a with
  | zero => simp [aggMax]
  | succ m ih =>
    rw [List.range'_succ, aggMax_cons, ih (a + 1)]
    cases m with
    | zero => simp
    | succ k =>
      rw [if_neg (by omega : ¬ (k + 1 = 0))]
      show some (max a (a + 1 + (k + 1) - 1)) = _
      have h2 : a ≤ a + 1 + (k + 1) - 1 := by omega
      rw [Nat.max_eq_right h2]
      rw [if_neg (by omega : ¬ (k + 1 + 1 = 0))]
      congr 1
      omega

theorem maxPos_of_posList (db : DB) (sid n : Nat) (h : posList db sid = List.range' 1 n) :
    maxPos db sid = n := by
  unfold maxPos
  rw [h, aggMax_range']
  cases n with
  | zero => simp [pyOr0]
  | succ k =>
    have h1 : ¬ (k + 1 = 0) := by omega
    simp only [h1, if_false, Nat.succ_ne_zero]
    unfold pyOr0
    have h2 : 1 + (k + 1) - 1 = k + 1 := by omega
    rw [h2]
    simp

theorem aggMax_eq_none_iff (l : List Nat) : aggMax l = none ↔ l = [] := by
  cases l with
  | nil => simp [aggMax]
  | cons x xs =>
    simp only [aggMax]
    cases aggMax xs <;> simp

theorem aggMax_mem_and_le (l : List Nat) (m : Nat) (h : aggMax l = some m) :
    m ∈ l ∧ ∀ x ∈ l, x ≤ m := by
  induction l generalizing m with
  | nil => simp [aggMax] at h
  | cons x xs ih =>
    simp only [aggMax] at h
    cases hxs : aggMax xs with
    | none =>
      rw [hxs] at h
      have hx : m = x := by simpa using h.symm
      have hnil : xs = [] := (aggMax_eq_none_iff xs).mp hxs
      subst hx hnil
      simp
    | some m' =>
      rw [hxs] at h
      have hm : m = max x m' := by simpa using h.symm
      obtain ⟨hmem, hle⟩ := ih m' hxs
      subst hm
      constructor
      · rcases Nat.le_total x m' with hx | hx
        · rw [Nat.max_eq_right hx]
          exact List.mem_cons_of_mem _ hmem
        · rw [Nat.max_eq_left hx]
          exact List.mem_cons_self _ _
      · intro y hy
        rcases List.mem_cons.mp hy with rfl | hy
        · exact Nat.le_max_left _ _
        · exact le_trans (hle y hy) (Nat.le_max_right _ _)

theorem countEntries_updateSession (db : DB) (sid : Nat) (f : Session → Session) (sid' : Nat) :
    countEntries (updateSession db sid f) sid' = countEntries db sid' := rfl

theorem countEntries_append' (db : DB) (sid p : Nat) (v : String) :
    countEntries { db with entries := db.entries ++ [⟨sid, p, v⟩] } sid =
      countEntries db sid + 1 :=
  countEntries_append db ⟨sid, p, v⟩ sid rfl

theorem posList_append' (db : DB) (sid p : Nat) (v : String) :
    posList { db with entries := db.entries ++ [⟨sid, p, v⟩] } sid =
      posList db sid ++ [p] :=
  posList_append db ⟨sid, p, v⟩ sid rfl

/-- Behaviour of the post-resolution move body on a losing verdict: the
losing move is appended, the session is finalized, and one Score snapshot
is written whose points count the chain *including* the losing move. -/
theorem proceedMove_loss_spec (db : DB) (uid : Nat) (s : Session) (mv msg : String)
    (hfind : findSession db s.id uid = some s) :
    ((findSession (proceedMove db uid s mv (AIOutcome.resp false msg)).1 s.id uid).map
        (fun t => (t.active, t.endedAt)) = some (false, some db.now)) ∧
    (proceedMove db uid s mv (AIOutcome.resp false msg)).1.scores =
      db.scores ++ [⟨uid, some s.id, countEntries db s.id + 1⟩] ∧
    (proceedMove db uid s mv (AIOutcome.resp false msg)).1.entries =
      db.entries ++ [⟨s.id, maxPos db s.id + 1, mv⟩] ∧
    (proceedMove db uid s mv (AIOutcome.resp false msg)).2 =
      MoveResult.lost (countEntries db s.id + 1)
        (bestScore (proceedMove db uid s mv (AIOutcome.resp false msg)).1 uid) s.id msg := by
  have hc : countEntries
      (updateSession { db with entries := db.entries ++ [⟨s.id, maxPos db s.id + 1, mv⟩] }
        s.id (fun t => { t with updatedAt := db.now })) s.id =
      countEntries db s.id + 1 := by
    rw [countEntries_updateSession, countEntries_append']
  have hfind2 : findSession
      (updateSession { db with entries := db.entries ++ [⟨s.id, maxPos db s.id + 1, mv⟩] }
        s.id (fun t => { t with updatedAt := db.now })) s.id uid =
      some { s with updatedAt := db.now } :=
    findSession_updateSession _ _ _ _ _ (fun t => rfl) (fun t => rfl) hfind
  have hfind3 := findSession_updateSession _ s.id uid
    (fun t => { t with active := false, endedAt := some db.now, updatedAt := db.now })
    _ (fun t => rfl) (fun t => rfl) hfind2
  refine ⟨?_, ?_, ?_, ?_⟩
  · have hfs : findSession (proceedMove db uid s mv (AIOutcome.resp false msg)).1 s.id uid =
        some { s with active := false, endedAt := some db.now, updatedAt := db.now } := hfind3
    rw [hfs]
    rfl
  · have hsc : (proceedMove db uid s mv (AIOutcome.resp false msg)).1.scores =
        db.scores ++ [⟨uid, some s.id, countEntries
          (updateSession { db with entries := db.entries ++ [⟨s.id, maxPos db s.id + 1, mv⟩] }
            s.id (fun t => { t with updatedAt := db.now })) s.id⟩] := rfl
    rw [hsc, hc]
  · rfl
  · have hr : (proceedMove db uid s mv (AIOutcome.resp false msg)).2 =
        MoveResult.lost (countEntries
          (updateSession { db with entries := db.entries ++ [⟨s.id, maxPos db s.id + 1, mv⟩] }
            s.id (fun t => { t with updatedAt := db.now })) s.id)
          (bestScore (proceedMove db uid s mv (AIOutcome.resp false msg)).1 uid) s.id msg := rfl
    rw [hr, hc]

/-- Behaviour of the post-resolution move body on a winning verdict, for a
session whose chain positions are exactly `1..n`: the move is appended at
position `n + 1`, the positions stay gapless, the activity flag is
untouched, and no Score row is written. -/
theorem proceedMove_win_spec (db : DB) (uid : Nat) (s : Session) (mv msg : String) (n : Nat)
    (hfind : findSession db s.id uid = some s)
    (hpos : posList db s.id = List.range' 1 n) :
    posList (proceedMove db uid s mv (AIOutcome.resp true msg)).1 s.id = List.range' 1 (n + 1) ∧
    countEntries (proceedMove db uid s mv (AIOutcome.resp true msg)).1 s.id = n + 1 ∧
    ((findSession (proceedMove db uid s mv (AIOutcome.resp true msg)).1 s.id uid).map
        (fun t => t.active) = some s.active) ∧
    (proceedMove db uid s mv (AIOutcome.resp true msg)).1.scores = db.scores ∧
    (proceedMove db uid s mv (AIOutcome.resp true msg)).2 =
      MoveResult.accepted (n + 1) s.id msg := by
  have hmax : maxPos db s.id = n := maxPos_of_posList db s.id n hpos
  have hcnt : countEntries db s.id = n := by
    rw [countEntries_eq_length_posList, hpos, List.length_range']
  have hc : countEntries
      (updateSession { db with entries := db.entries ++ [⟨s.id, maxPos db s.id + 1, mv⟩] }
        s.id (fun t => { t with updatedAt := db.now })) s.id =
      countEntries db s.id + 1 := by
    rw [countEntries_updateSession, countEntries_append']
  have hfind2 : findSession (proceedMove db uid s mv (AIOutcome.resp true msg)).1 s.id uid =
      some { s with updatedAt := db.now } :=
    findSession_updateSession _ _ _ _ _ (fun t => rfl) (fun t => rfl) hfind
  refine ⟨?_, ?_, ?_, rfl, ?_⟩
  · have hp : posList (proceedMove db uid s mv (AIOutcome.resp true msg)).1 s.id =
        posList { db with entries := db.entries ++ [⟨s.id, maxPos db s.id + 1, mv⟩] } s.id := rfl
    rw [hp, posList_append', hpos, hmax, List.range'_concat]
    congr 1
    simp [Nat.add_comm]
  · have hc2 : countEntries (proceedMove db uid s mv (AIOutcome.resp true msg)).1 s.id =
        countEntries db s.id + 1 := hc
    rw [hc2, hcnt]
  · rw [hfind2]
    rfl
  · have hr : (proceedMove db uid s mv (AIOutcome.resp true msg)).2 =
        MoveResult.accepted (countEntries
          (updateSession { db with entries := db.entries ++ [⟨s.id, maxPos db s.id + 1, mv⟩] }
            s.id (fun t => { t with updatedAt := db.now })) s.id) s.id msg := rfl
    rw [hr, hc, hcnt]

/-- Routing of `MoveAPIView.post` for a valid move on an existing active
session of the caller. -/
theorem movePost_existing (db : DB) (uid sid : Nat) (s : Session) (ai : AIOutcome)
    (mv m : String)
    (hval : validateMove mv = some m)
    (hfind : findSession db sid uid = some s)
    (hact : s.active = true) :
    movePost db uid ⟨mv, some sid⟩ ai = proceedMove db uid s m ai := by
  unfold movePost
  simp only [hval, hfind, hact]
  simp

/-- An example store: user 7 owns the active session 0 whose chain is
`rock, paper` (length 2). -/
def dbLoss : DB :=
  { sessions := [⟨0, 7, true, none, 0, 0⟩]
    entries := [⟨0, 1, "rock"⟩, ⟨0, 2, "paper"⟩]
    scores := []
    nextId := 1
    now := 5 }

def sessLoss : Session := ⟨0, 7, true, none, 0, 0⟩

/-! ## Claim C1 -/

/-- C1 counterexample: on an Active session with chain length 2 (`dbLoss`),
a losing verdict produces a Score row with `points = 3`, not 2 — the view
appends the losing move (views.py line 74) before counting (line 80), and
uses that count as the final score (lines 100–105). -/
theorem C1_counterexample :
    (movePost dbLoss 7 ⟨"scissors", some 0⟩ (AIOutcome.resp false "you lose")).1.scores =
      [⟨7, some 0, 3⟩] ∧ (3 : Nat) ≠ 2 := by
  constructor
  · rfl
  · decide

/-- C1 (amended): on a losing verdict for an Active session, the losing
move IS appended to the chain; the session becomes Ended with `ended_at`
set, and exactly one Score snapshot is written whose points equal the chain
length *including* the losing move, i.e. the length before the losing move
plus one (never negative).  In particular a chain of length 2 yields
`points = 3`. -/
theorem C1_loss_finalization (db : DB) (uid sid : Nat) (s : Session) (mv m msg : String)
    (hval : validateMove mv = some m)
    (hfind : findSession db sid uid = some s)
    (hact : s.active = true) :
    ((findSession (movePost db uid ⟨mv, some sid⟩ (AIOutcome.resp false msg)).1 sid uid).map
        (fun t => (t.active, t.endedAt)) = some (false, some db.now)) ∧
    (movePost db uid ⟨mv, some sid⟩ (AIOutcome.resp false msg)).1.scores =
      db.scores ++ [⟨uid, some sid, countEntries db sid + 1⟩] ∧
    (movePost db uid ⟨mv, some sid⟩ (AIOutcome.resp false msg)).1.entries =
      db.entries ++ [⟨sid, maxPos db sid + 1, m⟩] ∧
    (movePost db uid ⟨mv, some sid⟩ (AIOutcome.resp false msg)).2 =
      MoveResult.lost (countEntries db sid + 1)
        (bestScore (movePost db uid ⟨mv, some sid⟩ (AIOutcome.resp false msg)).1 uid) sid msg := by
  have hsid : s.id = sid := by
    have hp := List.find?_some hfind
    simp only [Bool.and_eq_true, beq_iff_eq] at hp
    exact hp.1
  subst hsid
  rw [movePost_existing db uid s.id s _ mv m hval hfind hact]
  exact proceedMove_loss_spec db uid s m msg hfind

/-- C1 witness: the amended claim at the concrete scenario of the spec —
chain length 2, losing next move. -/
theorem C1_witness :
    validateMove "scissors" = some "scissors" ∧
    findSession dbLoss 0 7 = some sessLoss ∧
    sessLoss.active = true ∧
    (((findSession (movePost dbLoss 7 ⟨"scissors", some 0⟩ (AIOutcome.resp false "l")).1 0 7).map
        (fun t => (t.active, t.endedAt)) = some (false, some dbLoss.now)) ∧
      (movePost dbLoss 7 ⟨"scissors", some 0⟩ (AIOutcome.resp false "l")).1.scores =
        dbLoss.scores ++ [⟨7, some 0, countEntries dbLoss 0 + 1⟩] ∧
      (movePost dbLoss 7 ⟨"scissors", some 0⟩ (AIOutcome.resp false "l")).1.entries =
        dbLoss.entries ++ [⟨0, maxPos dbLoss 0 + 1, "scissors"⟩] ∧
      (movePost dbLoss 7 ⟨"scissors", some 0⟩ (AIOutcome.resp false "l")).2 =
        MoveResult.lost (countEntries dbLoss 0 + 1)
          (bestScore (movePost dbLoss 7 ⟨"scissors", some 0⟩ (AIOutcome.resp false "l")).1 7) 0 "l") :=
  ⟨by decide, by decide, by decide,
    C1_loss_finalization dbLoss 7 0 sessLoss "scissors" "scissors" "l"
      (by decide) (by decide) (by decide)⟩

/-! ## Claim C2 -/

/-- C2 counterexample: three winning "rock" moves, the first of which
creates the session, leave a chain of length 4, not 3 — session creation
seeds the chain with a `ChainEntry(position=1, value="rock")` (views.py
line 50) before the submitted move is appended at position 2.  The session
is still Active and no Score row exists, as the claim says. -/
theorem C2_counterexample :
    (let r1 := movePost (⟨[], [], [], 0, 0⟩ : DB) 7 ⟨"rock", none⟩ (AIOutcome.resp true "w")
     let r2 := movePost r1.1 7 ⟨"rock", some 0⟩ (AIOutcome.resp true "w")
     let r3 := movePost r2.1 7 ⟨"rock", some 0⟩ (AIOutcome.resp true "w")
     countEntries r3.1 0 = 4 ∧ ¬ countEntries r3.1 0 = 3 ∧
       (findSession r3.1 0 7).map (fun s => s.active) = some true ∧
       r3.1.scores = []) := by
  decide

/-- C2 (amended): a valid move submitted to an *existing* Active session
whose chain positions are exactly `1..n` is appended at position `n + 1`:
the chain length increases by exactly 1, positions stay strictly
increasing and gapless from 1, the session stays Active, and no Score row
is written.  (A session-*creating* move instead adds two entries: the seed
"rock" at position 1 plus the submitted move, so the three-wins scenario
ends with chain length 4.) -/
theorem C2_chain_monotonicity (db : DB) (uid sid : Nat) (s : Session)
    (mv m msg : String) (n : Nat)
    (hval : validateMove mv = some m)
    (hfind : findSession db sid uid = some s)
    (hact : s.active = true)
    (hpos : posList db sid = List.range' 1 n) :
    posList (movePost db uid ⟨mv, some sid⟩ (AIOutcome.resp true msg)).1 sid =
      List.range' 1 (n + 1) ∧
    countEntries (movePost db uid ⟨mv, some sid⟩ (AIOutcome.resp true msg)).1 sid = n + 1 ∧
    ((findSession (movePost db uid ⟨mv, some sid⟩ (AIOutcome.resp true msg)).1 sid uid).map
        (fun t => t.active) = some true) ∧
    (movePost db uid ⟨mv, some sid⟩ (AIOutcome.resp true msg)).1.scores = db.scores ∧
    (movePost db uid ⟨mv, some sid⟩ (AIOutcome.resp true msg)).2 =
      MoveResult.accepted (n + 1) sid msg := by
  have hsid : s.id = sid := by
    have hp := List.find?_some hfind
    simp only [Bool.and_eq_true, beq_iff_eq] at hp
    exact hp.1
  subst hsid
  rw [movePost_existing db uid s.id s _ mv m hval hfind hact]
  have h := proceedMove_win_spec db uid s m msg n hfind hpos
  rw [hact] at h
  exact h

/-- C2 witness: the amended claim exercised on `dbLoss` (an active session
whose chain positions are `1, 2`) with a winning verdict. -/
theorem C2_witness :
    validateMove "paper" = some "paper" ∧
    findSession dbLoss 0 7 = some sessLoss ∧
    sessLoss.active = true ∧
    posList dbLoss 0 = List.range' 1 2 ∧
    (posList (movePost dbLoss 7 ⟨"paper", some 0⟩ (AIOutcome.resp true "w")).1 0 =
        List.range' 1 3 ∧
      countEntries (movePost dbLoss 7 ⟨"paper", some 0⟩ (AIOutcome.resp true "w")).1 0 = 3 ∧
      ((findSession (movePost dbLoss 7 ⟨"paper", some 0⟩ (AIOutcome.resp true "w")).1 0 7).map
          (fun t => t.active) = some true) ∧
      (movePost dbLoss 7 ⟨"paper", some 0⟩ (AIOutcome.resp true "w")).1.scores = dbLoss.scores ∧
      (movePost dbLoss 7 ⟨"paper", some 0⟩ (AIOutcome.resp true "w")).2 =
        MoveResult.accepted 3 0 "w") :=
  ⟨by decide, by decide, by decide, by decide,
    C2_chain_monotonicity dbLoss 7 0 sessLoss "paper" "paper" "w" 2
      (by decide) (by decide) (by decide) (by decide)⟩

/-! ## Claim C3 -/

/-- C3: with the circuit open (here: 6 recorded failures, 10 ticks of a
30-tick cooldown elapsed) `get_ai_decision` fast-fails — but its
service-unavailable outcome is returned as `{"result": False, "message":
"AI service temporarily unavailable"}`, the same shape as a losing verdict.
`MoveAPIView.post` branches only on the truthiness of `result`
(views.py line 82), so it finalizes the session and writes a Score for the
unavailable outcome exactly as for a loss, instead of surfacing a distinct
service-unavailable condition (the repository's own tests expect a 503
here).  The retries-exhausted outcome `"AI service unreachable"` has the
same `result = False` shape. -/
theorem C3_unavailable_indistinguishable_from_loss :
    get_ai_decision ⟨6, 30, 3, true⟩ 110 ⟨6, 100⟩ [] =
      (⟨false, "AI service temporarily unavailable"⟩, ⟨6, 100⟩, 0) ∧
    (get_ai_decision ⟨6, 30, 3, true⟩ 140 ⟨6, 100⟩
        [Attempt.netError, Attempt.netError, Attempt.netError]).1 =
      ⟨false, "AI service unreachable"⟩ ∧
    (let r := movePost dbLoss 7 ⟨"paper", some 0⟩
        (AIOutcome.resp false "AI service temporarily unavailable")
     (findSession r.1 0 7).map (fun s => s.active) = some false ∧
       r.1.scores = [⟨7, some 0, 3⟩] ∧
       r.2 = MoveResult.lost 3 3 0 "AI service temporarily unavailable") := by
  refine ⟨rfl, rfl, ?_, ?_, ?_⟩ <;> decide

/-! ## Claim C4 -/

/-- C4: the submitted move is NOT checked against the three canonical
tokens.  `MoveSerializer.move` is a bare `CharField(max_length=64)`
(serializers.py line 19) — the `AI_ALLOWED_MOVES` setting exists but is
never enforced — so `"banana"` passes validation, a session and its seed
chain entry are created, the Decision Client is invoked, and `"banana"` is
appended to the chain (the repository's own tests `test_invalid_move_rejected`
expect a 400 "invalid move" instead). -/
theorem C4_noncanonical_move_accepted :
    validateMove "banana" = some "banana" ∧
    (movePost (⟨[], [], [], 0, 0⟩ : DB) 7 ⟨"banana", none⟩ (AIOutcome.resp true "ok")).2 =
      MoveResult.accepted 2 0 "ok" ∧
    (movePost (⟨[], [], [], 0, 0⟩ : DB) 7 ⟨"banana", none⟩ (AIOutcome.resp true "ok")).1.entries =
      [⟨0, 1, "rock"⟩, ⟨0, 2, "banana"⟩] := by
  refine ⟨?_, ?_, ?_⟩ <;> decide

/-! ## Claim C9 -/

/-- C9: every leaderboard request fails.  The first statement of
`LeaderboardTopView.get` (views.py line 178) calls `safe_int`, a name that
is neither defined nor imported anywhere in the module, so the handler
raises `NameError` before any aggregation runs (and the annotation
`Max("score__points")` would independently raise `FieldError`, since the
reverse name of `Score.user` is `scores`). -/
theorem C9_leaderboard_always_raises :
    ∀ (lim : Option String) (db : DB),
      leaderboardTopGet lim db =
        Except.error "NameError: name 'safe_int' is not defined" :=
  fun _ _ => rfl

/-! ## Claim C5 -/

/-- With fuel left and an attempt outcome available, the retry loop always
performs at least one network attempt. -/
theorem aiLoop_attempts_pos (cfg : AIConfig) (now f : Nat) (a : Attempt)
    (rest : List Attempt) (b : Breaker) :
    1 ≤ (aiLoop cfg now (f + 1) (a :: rest) b).2.2 := by
  rcases a with outer | ⟨st, ra⟩ | - | -
  · rcases outer with - | bb | lit | str | l | members <;> simp [aiLoop]
    rcases h : extract_model_text members with - | v
    · simp [h]
    · rcases v <;> simp [h]
  · simp only [aiLoop]
    split
    · simp
    · split <;> simp
  · simp [aiLoop]
  · simp [aiLoop]

/-- C5: the count-threshold circuit breaker of `ai_client.py`.  (i) At or
above the threshold and within the cooldown, the next top-level call
fast-fails with the service-unavailable result making no network attempt;
(ii) once the time since the last recorded failure strictly exceeds the
cooldown, `_is_circuit_open` resets the counter to zero and the call makes
a live network attempt; (iii) an HTTP-successful attempt with usable model
text resets the failure counter to zero. -/
theorem C5_circuit_breaker (cfg : AIConfig) (now : Nat) (b : Breaker)
    (attempts : List Attempt) :
    (cfg.threshold ≤ b.count → now - b.lastFailure ≤ cfg.cooldown →
      get_ai_decision cfg now b attempts =
        (⟨false, "AI service temporarily unavailable"⟩, b, 0)) ∧
    (cfg.threshold ≤ b.count → cfg.cooldown < now - b.lastFailure →
      is_circuit_open now cfg b = (false, ⟨0, b.lastFailure⟩) ∧
      (cfg.baseUrlSet = true → 1 ≤ cfg.retryAttempts →
        ∀ a rest, attempts = a :: rest →
          1 ≤ (get_ai_decision cfg now b attempts).2.2)) ∧
    (∀ outer rest s, b.count < cfg.threshold → cfg.baseUrlSet = true →
      1 ≤ cfg.retryAttempts →
      attempts = Attempt.ok (Json.obj outer) :: rest →
      extract_model_text outer = some (Json.str s) →
      (get_ai_decision cfg now b attempts).2.1.count = 0) := by
  refine ⟨?_, ?_, ?_⟩
  · intro h1 h2
    have h1' : ¬ b.count < cfg.threshold := by omega
    have h2' : ¬ (now - b.lastFailure > cfg.cooldown) := by omega
    simp [get_ai_decision, is_circuit_open, h1', h2']
  · intro h1 h2
    have h1' : ¬ b.count < cfg.threshold := by omega
    constructor
    · simp [is_circuit_open, h1', h2]
    · intro hurl hretry a rest hatt
      obtain ⟨k, hk⟩ : ∃ k, cfg.retryAttempts = k + 1 := by
        cases hr : cfg.retryAttempts with
        | zero => omega
        | succ k => exact ⟨k, rfl⟩
      subst hatt
      have hpos := aiLoop_attempts_pos cfg now k a rest { b with count := 0 }
      simpa [get_ai_decision, is_circuit_open, h1', h2, hurl, hk] using hpos
  · intro outer rest s h1 hurl hretry hatt hext
    obtain ⟨k, hk⟩ : ∃ k, cfg.retryAttempts = k + 1 := by
      cases hr : cfg.retryAttempts with
      | zero => omega
      | succ k => exact ⟨k, rfl⟩
    subst hatt
    simp [get_ai_decision, is_circuit_open, h1, hurl, hk, aiLoop, hext, record_success]

/-- C5 witness: threshold 6, cooldown 30.  (i) at `now = 110` with the last
failure at 100 the call fast-fails with no attempt; (ii) at `now = 140` the
breaker resets and one attempt is made; (iii) a successful reply leaves the
counter at zero. -/
theorem C5_witness :
    (get_ai_decision ⟨6, 30, 3, true⟩ 110 ⟨6, 100⟩ [Attempt.netError] =
      (⟨false, "AI service temporarily unavailable"⟩, ⟨6, 100⟩, 0)) ∧
    (is_circuit_open 140 ⟨6, 30, 3, true⟩ ⟨6, 100⟩ = (false, ⟨0, 100⟩) ∧
      1 ≤ (get_ai_decision ⟨6, 30, 3, true⟩ 140 ⟨6, 100⟩ [Attempt.netError]).2.2) ∧
    (get_ai_decision ⟨6, 30, 3, true⟩ 50 ⟨2, 40⟩
        [Attempt.ok (Json.obj [("response", Json.str "true - ok")])]).2.1.count = 0 := by
  refine ⟨?_, ⟨?_, ?_⟩, ?_⟩
  · exact (C5_circuit_breaker ⟨6, 30, 3, true⟩ 110 ⟨6, 100⟩ [Attempt.netError]).1
      (by decide) (by decide)
  · exact ((C5_circuit_breaker ⟨6, 30, 3, true⟩ 140 ⟨6, 100⟩ [Attempt.netError]).2.1
      (by decide) (by decide)).1
  · exact ((C5_circuit_breaker ⟨6, 30, 3, true⟩ 140 ⟨6, 100⟩ [Attempt.netError]).2.1
      (by decide) (by decide)).2 rfl (by decide) Attempt.netError [] rfl
  · exact (C5_circuit_breaker ⟨6, 30, 3, true⟩ 50 ⟨2, 40⟩
      [Attempt.ok (Json.obj [("response", Json.str "true - ok")])]).2.2
      [("response", Json.str "true - ok")] [] "true - ok"
      (by decide) rfl (by decide) rfl rfl

/-! ## Claim C8 -/

theorem scoresFor_append' (db : DB) (uid sid p : Nat) :
    scoresFor { db with scores := db.scores ++ [⟨uid, some sid, p⟩] } uid sid =
      scoresFor db uid sid ++ [⟨uid, some sid, p⟩] := by
  unfold scoresFor
  simp [List.filter_append]

theorem scoresFor_updateSession (db : DB) (sid' : Nat) (f : Session → Session) (uid sid : Nat) :
    scoresFor (updateSession db sid' f) uid sid = scoresFor db uid sid := rfl

/-- C8: end-session is idempotent.  For an Active session with no prior
Score row, the first call records `points = chain count`; the second call
(on the now-Ended session) returns the same final score, performs no write
(the post-state is unchanged), and exactly one Score row for the session
exists in total. -/
theorem C8_end_idempotent (db : DB) (uid sid : Nat) (s : Session)
    (hfind : findSession db sid uid = some s)
    (hact : s.active = true)
    (hnos : scoresFor db uid sid = []) :
    (endSessionPost db uid sid).2.finalScore = some (countEntries db sid) ∧
    (endSessionPost (endSessionPost db uid sid).1 uid sid).2.finalScore =
      (endSessionPost db uid sid).2.finalScore ∧
    scoresFor (endSessionPost (endSessionPost db uid sid).1 uid sid).1 uid sid =
      [⟨uid, some sid, countEntries db sid⟩] ∧
    (endSessionPost (endSessionPost db uid sid).1 uid sid).1 =
      (endSessionPost db uid sid).1 := by
  have hp : endSessionPost db uid sid = endActiveBranch db uid sid := by
    simp [endSessionPost, hfind, hact]
  have hfind2 : findSession (endActiveBranch db uid sid).1 sid uid =
      some { s with active := false, endedAt := some db.now, updatedAt := db.now } :=
    findSession_updateSession db sid uid _ s (fun t => rfl) (fun t => rfl) hfind
  have hq : endSessionPost (endActiveBranch db uid sid).1 uid sid =
      endEndedBranch (endActiveBranch db uid sid).1 uid sid
        { s with active := false, endedAt := some db.now, updatedAt := db.now } := by
    unfold endSessionPost
    rw [hfind2]
    simp
  have hcnt : countEntries (endActiveBranch db uid sid).1 sid = countEntries db sid := rfl
  have hsf : scoresFor (endActiveBranch db uid sid).1 uid sid =
      [⟨uid, some sid, countEntries db sid⟩] := by
    have h1 : scoresFor (endActiveBranch db uid sid).1 uid sid =
        scoresFor (updateSession db sid
          (fun t => { t with active := false, endedAt := some db.now, updatedAt := db.now }))
          uid sid ++ [⟨uid, some sid, countEntries db sid⟩] :=
      scoresFor_append' _ uid sid (countEntries db sid)
    rw [h1, scoresFor_updateSession, hnos]
    rfl
  rw [hp, hq]
  have hfinal2 : (endEndedBranch (endActiveBranch db uid sid).1 uid sid
      { s with active := false, endedAt := some db.now, updatedAt := db.now }).2.finalScore =
      some (countEntries db sid) := by
    unfold endEndedBranch
    rw [hsf]
    show some (if countEntries db sid = 0 then countEntries db sid else countEntries db sid) =
      some (countEntries db sid)
    rw [ite_self]
  refine ⟨rfl, ?_, ?_, rfl⟩
  · rw [hfinal2]
    rfl
  · exact hsf

/-- C8 witness: `dbLoss` (active session 0 of user 7, chain length 2)
ended twice. -/
theorem C8_witness :
    findSession dbLoss 0 7 = some sessLoss ∧
    sessLoss.active = true ∧
    scoresFor dbLoss 7 0 = [] ∧
    ((endSessionPost dbLoss 7 0).2.finalScore = some (countEntries dbLoss 0) ∧
      (endSessionPost (endSessionPost dbLoss 7 0).1 7 0).2.finalScore =
        (endSessionPost dbLoss 7 0).2.finalScore ∧
      scoresFor (endSessionPost (endSessionPost dbLoss 7 0).1 7 0).1 7 0 =
        [⟨7, some 0, countEntries dbLoss 0⟩] ∧
      (endSessionPost (endSessionPost dbLoss 7 0).1 7 0).1 =
        (endSessionPost dbLoss 7 0).1) :=
  ⟨by decide, by decide, by decide,
    C8_end_idempotent dbLoss 7 0 sessLoss (by decide) (by decide) (by decide)⟩

/-! ## Claim C10 -/

theorem pyOr0_some (m : Nat) : pyOr0 (some m) = m := by
  rcases m with - | k <;> rfl

/-- C10: a caller with no active session gets the default state
`(session_id = null, chain = ["Rock"], score = 0)` — so the reported score
(0) is not the length of the reported chain (1) — and `best_score` is the
maximum of the caller's Score rows' points, or 0 when there are none. -/
theorem C10_default_session_state (db : DB) (uid : Nat)
    (hno : db.sessions.filter (fun s => s.userId == uid && s.active) = []) :
    currentSessionGet db uid =
      { sessionId := none, chain := ["Rock"], score := 0, best := bestScore db uid } ∧
    (currentSessionGet db uid).score ≠ (currentSessionGet db uid).chain.length ∧
    ((db.scores.filter (fun r => r.userId == uid)).map (fun r => r.points) = [] →
      bestScore db uid = 0) ∧
    (∀ m, aggMax ((db.scores.filter (fun r => r.userId == uid)).map (fun r => r.points)) =
        some m →
      bestScore db uid = m ∧
      m ∈ (db.scores.filter (fun r => r.userId == uid)).map (fun r => r.points) ∧
      ∀ x ∈ (db.scores.filter (fun r => r.userId == uid)).map (fun r => r.points), x ≤ m) := by
  have h1 : latestActive db uid = none := by
    simp [latestActive, hno, aggMax]
  have hmain : currentSessionGet db uid =
      { sessionId := none, chain := ["Rock"], score := 0, best := bestScore db uid } := by
    simp [currentSessionGet, h1]
  refine ⟨hmain, ?_, ?_, ?_⟩
  · rw [hmain]
    exact Nat.zero_ne_one
  · intro h
    unfold bestScore
    rw [h]
    rfl
  · intro m hm
    obtain ⟨hmem, hle⟩ := aggMax_mem_and_le _ m hm
    refine ⟨?_, hmem, hle⟩
    unfold bestScore
    rw [hm, pyOr0_some]

/-- C10 witness: user 7 has only an ended session and two Score rows (2 and
5); the current-session endpoint reports the default state with best score
5. -/
theorem C10_witness :
    (DB.mk [⟨3, 7, false, some 2, 0, 1⟩] [⟨3, 1, "rock"⟩] [⟨7, some 3, 2⟩, ⟨7, none, 5⟩] 4 9).sessions.filter
        (fun s => s.userId == 7 && s.active) = [] ∧
    (currentSessionGet (DB.mk [⟨3, 7, false, some 2, 0, 1⟩] [⟨3, 1, "rock"⟩]
        [⟨7, some 3, 2⟩, ⟨7, none, 5⟩] 4 9) 7 =
      { sessionId := none, chain := ["Rock"], score := 0
        best := bestScore (DB.mk [⟨3, 7, false, some 2, 0, 1⟩] [⟨3, 1, "rock"⟩]
          [⟨7, some 3, 2⟩, ⟨7, none, 5⟩] 4 9) 7 }) ∧
    bestScore (DB.mk [⟨3, 7, false, some 2, 0, 1⟩] [⟨3, 1, "rock"⟩]
      [⟨7, some 3, 2⟩, ⟨7, none, 5⟩] 4 9) 7 = 5 :=
  ⟨by decide,
    (C10_default_session_state _ 7 (by decide)).1,
    ((C10_default_session_state
        (DB.mk [⟨3, 7, false, some 2, 0, 1⟩] [⟨3, 1, "rock"⟩]
          [⟨7, some 3, 2⟩, ⟨7, none, 5⟩] 4 9) 7 (by decide)).2.2.2 5 (by decide)).1⟩

/-! ## Claim C7 -/

/-- C7 counterexample: there is no Dialect A verdict enum in the code.  The
object `{"result":"tie"}` does NOT yield a recognized tie verdict: the
decision pipeline only recognises boolean `result` values (or boolean-token
strings), so `"tie"` falls through every strategy to the lenient favorable
fallback `{result: True, message: <raw text>}` — the same output as for
unparseable free-form text; and an out-of-enum value such as `"banana"` is
likewise a normal favorable verdict, not a parse failure. -/
theorem C7_counterexample :
    normalizeModelText "\x7b\"result\":\"tie\"\x7d" =
      ⟨true, "\x7b\"result\":\"tie\"\x7d"⟩ ∧
    normalizeModelText "\x7b\"result\":\"banana\"\x7d" =
      ⟨true, "\x7b\"result\":\"banana\"\x7d"⟩ ∧
    normalizeModelText "the move was interesting" =
      ⟨true, "the move was interesting"⟩ := by
  refine ⟨?_, ?_, ?_⟩ <;> decide

/-- C7 (amended): the normalizer recognises a `result` field only when it
is a JSON boolean (yielding that boolean with the `message`/`explanation`
field) or a boolean-token string; any other `result` value — including the
would-be enum values "tie", "win", "lose", "error" — is not a parse
failure but falls through to the lenient favorable fallback
`{result: True, message: <raw model text>}`. -/
theorem C7_result_field_boolean_only :
    (∀ (mt : String) (b : Bool),
      decision_from_parsed mt [("result", Json.bool b)] = ⟨b, ""⟩) ∧
    (∀ (mt msg : String) (b : Bool),
      decision_from_parsed mt [("result", Json.bool b), ("message", Json.str msg)] =
        ⟨b, if msg.isEmpty then "" else msg⟩) ∧
    (∀ mt : String, decision_from_parsed mt [("result", Json.str "tie")] = ⟨true, mt⟩) ∧
    (∀ mt : String, decision_from_parsed mt [("result", Json.str "win")] = ⟨true, mt⟩) ∧
    (∀ mt : String, decision_from_parsed mt [("result", Json.str "lose")] = ⟨true, mt⟩) ∧
    (∀ mt : String, decision_from_parsed mt [("result", Json.str "error")] = ⟨true, mt⟩) := by
  refine ⟨fun mt b => rfl, ?_, fun mt => rfl, fun mt => rfl, fun mt => rfl, fun mt => rfl⟩
  intro mt msg b
  by_cases h : msg.isEmpty <;>
    simp +decide [decision_from_parsed, messageField, pyOr, pyTruthy, pyStr, List.lookup, h]

/-! ## Claim C6 -/

/-- The first character of a nonempty list is not whitespace. -/
def headOk : List Char → Bool
  | [] => false
  | c :: _ => !c.isWhitespace

theorem isWhitespace_toLower (c : Char) (h : c.isWhitespace = true) : c.toLower = c := by
  simp [Char.isWhitespace] at h
  rcases h with ((rfl | rfl) | rfl) | rfl <;> decide

theorem headOk_append (l l₂ : List Char) (h : l ≠ []) :
    headOk (l ++ l₂) = headOk l := by
  cases l with
  | nil => exact absurd rfl h
  | cons c rest => rfl

theorem stripChars_eq_self (cs : List Char) (h1 : headOk cs = true)
    (h2 : headOk cs.reverse = true) : stripChars cs = cs := by
  cases cs with
  | nil => simp [headOk] at h1
  | cons c rest =>
    have hc : c.isWhitespace = false := by simpa [headOk] using h1
    unfold stripChars
    rw [List.dropWhile_cons, if_neg (by simp [hc])]
    cases hrev : (c :: rest).reverse with
    | nil => exact absurd hrev (by simp)
    | cons z zr =>
      have hz : z.isWhitespace = false := by
        rw [hrev] at h2
        simpa [headOk] using h2
      rw [List.dropWhile_cons, if_neg (by simp [hz]), ← hrev, List.reverse_reverse]

theorem mk_data (s : String) : String.mk s.data = s := by
  cases s
  rfl

theorem pyStrip_eq_self (s : String) (h1 : headOk s.data = true)
    (h2 : headOk s.data.reverse = true) : pyStrip s = s := by
  unfold pyStrip
  rw [stripChars_eq_self s.data h1 h2, mk_data]

theorem ciPrefix_of_lower (t : List Char) (v rest : List Char)
    (hv : v.map Char.toLower = t) : ciPrefix t (v ++ rest) = some rest := by
  induction t generalizing v with
  | nil =>
    have : v = [] := List.eq_nil_of_map_eq_nil hv
    subst this
    rfl
  | cons th tt ih =>
    cases v with
    | nil => simp at hv
    | cons c v' =>
      simp only [List.map_cons, List.cons.injEq] at hv
      simp [ciPrefix, hv.1, ih v' hv.2]

theorem ciPrefix_cons_ne (t : Char) (ts : List Char) (c : Char) (cs : List Char)
    (h : ¬ c.toLower = t) : ciPrefix (t :: ts) (c :: cs) = none := by
  show (if c.toLower = t then ciPrefix ts cs else none) = none
  rw [if_neg h]

/-- The ordered-alternation boolean-token match succeeds on exactly the
token whose lowercase spelling the input starts with, provided the `\b`
boundary holds afterwards. -/
theorem matchBoolToken_spec (tok : String) (v rest : List Char)
    (htok : tok ∈ boolTokens)
    (hv : v.map Char.toLower = tok.data)
    (hb : boundaryOk rest = true) :
    matchBoolToken boolTokens (v ++ rest) = some (tok, rest) := by
  simp only [boolTokens, List.mem_cons, List.not_mem_nil, or_false] at htok
  rcases htok with rfl | rfl | rfl | rfl | rfl | rfl
  · cases v with
    | nil =>
      rw [show ("true" : String).data = ['t', 'r', 'u', 'e'] from rfl] at hv
      exact absurd hv (by simp)
    | cons c v' =>
      rw [show ("true" : String).data = ['t', 'r', 'u', 'e'] from rfl] at hv
      simp only [List.map_cons, List.cons.injEq] at hv
      have hpre : ciPrefix ['t', 'r', 'u', 'e'] (c :: (v' ++ rest)) = some rest := by
        have := ciPrefix_of_lower ['t', 'r', 'u', 'e'] (c :: v') rest (by simp [hv.1, hv.2])
        simpa using this
      simp [boolTokens, matchBoolToken,  hpre, hb]
  · cases v with
    | nil =>
      rw [show ("false" : String).data = ['f', 'a', 'l', 's', 'e'] from rfl] at hv
      exact absurd hv (by simp)
    | cons c v' =>
      rw [show ("false" : String).data = ['f', 'a', 'l', 's', 'e'] from rfl] at hv
      simp only [List.map_cons, List.cons.injEq] at hv
      have hpre : ciPrefix ['f', 'a', 'l', 's', 'e'] (c :: (v' ++ rest)) = some rest := by
        have := ciPrefix_of_lower ['f', 'a', 'l', 's', 'e'] (c :: v') rest (by simp [hv.1, hv.2])
        simpa using this
      have hf0 : ciPrefix ['t', 'r', 'u', 'e'] (c :: (v' ++ rest)) = none :=
        ciPrefix_cons_ne _ _ _ _ (by rw [hv.1]; decide)
      simp [boolTokens, matchBoolToken, hf0, hpre, hb]
  · cases v with
    | nil =>
      rw [show ("yes" : String).data = ['y', 'e', 's'] from rfl] at hv
      exact absurd hv (by simp)
    | cons c v' =>
      rw [show ("yes" : String).data = ['y', 'e', 's'] from rfl] at hv
      simp only [List.map_cons, List.cons.injEq] at hv
      have hpre : ciPrefix ['y', 'e', 's'] (c :: (v' ++ rest)) = some rest := by
        have := ciPrefix_of_lower ['y', 'e', 's'] (c :: v') rest (by simp [hv.1, hv.2])
        simpa using this
      have hf0 : ciPrefix ['t', 'r', 'u', 'e'] (c :: (v' ++ rest)) = none :=
        ciPrefix_cons_ne _ _ _ _ (by rw [hv.1]; decide)
      have hf1 : ciPrefix ['f', 'a', 'l', 's', 'e'] (c :: (v' ++ rest)) = none :=
        ciPrefix_cons_ne _ _ _ _ (by rw [hv.1]; decide)
      simp [boolTokens, matchBoolToken, hf0, hf1, hpre, hb]
  · cases v with
    | nil =>
      rw [show ("no" : String).data = ['n', 'o'] from rfl] at hv
      exact absurd hv (by simp)
    | cons c v' =>
      rw [show ("no" : String).data = ['n', 'o'] from rfl] at hv
      simp only [List.map_cons, List.cons.injEq] at hv
      have hpre : ciPrefix ['n', 'o'] (c :: (v' ++ rest)) = some rest := by
        have := ciPrefix_of_lower ['n', 'o'] (c :: v') rest (by simp [hv.1, hv.2])
        simpa using this
      have hf0 : ciPrefix ['t', 'r', 'u', 'e'] (c :: (v' ++ rest)) = none :=
        ciPrefix_cons_ne _ _ _ _ (by rw [hv.1]; decide)
      have hf1 : ciPrefix ['f', 'a', 'l', 's', 'e'] (c :: (v' ++ rest)) = none :=
        ciPrefix_cons_ne _ _ _ _ (by rw [hv.1]; decide)
      have hf2 : ciPrefix ['y', 'e', 's'] (c :: (v' ++ rest)) = none :=
        ciPrefix_cons_ne _ _ _ _ (by rw [hv.1]; decide)
      simp [boolTokens, matchBoolToken, hf0, hf1, hf2, hpre, hb]
  · cases v with
    | nil =>
      rw [show ("1" : String).data = ['1'] from rfl] at hv
      exact absurd hv (by simp)
    | cons c v' =>
      rw [show ("1" : String).data = ['1'] from rfl] at hv
      simp only [List.map_cons, List.cons.injEq] at hv
      have hpre : ciPrefix ['1'] (c :: (v' ++ rest)) = some rest := by
        have := ciPrefix_of_lower ['1'] (c :: v') rest (by simp [hv.1, hv.2])
        simpa using this
      have hf0 : ciPrefix ['t', 'r', 'u', 'e'] (c :: (v' ++ rest)) = none :=
        ciPrefix_cons_ne _ _ _ _ (by rw [hv.1]; decide)
      have hf1 : ciPrefix ['f', 'a', 'l', 's', 'e'] (c :: (v' ++ rest)) = none :=
        ciPrefix_cons_ne _ _ _ _ (by rw [hv.1]; decide)
      have hf2 : ciPrefix ['y', 'e', 's'] (c :: (v' ++ rest)) = none :=
        ciPrefix_cons_ne _ _ _ _ (by rw [hv.1]; decide)
      have hf3 : ciPrefix ['n', 'o'] (c :: (v' ++ rest)) = none :=
        ciPrefix_cons_ne _ _ _ _ (by rw [hv.1]; decide)
      simp [boolTokens, matchBoolToken, hf0, hf1, hf2, hf3, hpre, hb]
  · cases v with
    | nil =>
      rw [show ("0" : String).data = ['0'] from rfl] at hv
      exact absurd hv (by simp)
    | cons c v' =>
      rw [show ("0" : String).data = ['0'] from rfl] at hv
      simp only [List.map_cons, List.cons.injEq] at hv
      have hpre : ciPrefix ['0'] (c :: (v' ++ rest)) = some rest := by
        have := ciPrefix_of_lower ['0'] (c :: v') rest (by simp [hv.1, hv.2])
        simpa using this
      have hf0 : ciPrefix ['t', 'r', 'u', 'e'] (c :: (v' ++ rest)) = none :=
        ciPrefix_cons_ne _ _ _ _ (by rw [hv.1]; decide)
      have hf1 : ciPrefix ['f', 'a', 'l', 's', 'e'] (c :: (v' ++ rest)) = none :=
        ciPrefix_cons_ne _ _ _ _ (by rw [hv.1]; decide)
      have hf2 : ciPrefix ['y', 'e', 's'] (c :: (v' ++ rest)) = none :=
        ciPrefix_cons_ne _ _ _ _ (by rw [hv.1]; decide)
      have hf3 : ciPrefix ['n', 'o'] (c :: (v' ++ rest)) = none :=
        ciPrefix_cons_ne _ _ _ _ (by rw [hv.1]; decide)
      have hf4 : ciPrefix ['1'] (c :: (v' ++ rest)) = none :=
        ciPrefix_cons_ne _ _ _ _ (by rw [hv.1]; decide)
      simp [boolTokens, matchBoolToken, hf0, hf1, hf2, hf3, hf4, hpre, hb]

theorem tokens_headOk : ∀ t ∈ boolTokens, headOk t.data = true := by decide

theorem parse_field_generic (tok v sep e : String)
    (htok : tok ∈ boolTokens)
    (hv : strLower v = tok)
    (hsep : sep = "-" ∨ sep = ":")
    (hh : headOk e.data = true)
    (hl : headOk e.data.reverse = true)
    (hnl : e.data.contains '\n' = false) :
    parse_result_and_explanation_from_field (Json.str (v ++ " " ++ sep ++ " " ++ e)) =
      Except.ok (((tok == "true") || (tok == "yes") || (tok == "1")), e) := by
  have hv' : v.data.map Char.toLower = tok.data := by
    rw [← hv]
    rfl
  have hvne : v.data ≠ [] := by
    intro h
    rw [h] at hv'
    have htokd : tok = "" := by
      rw [← mk_data tok, ← hv']
      rfl
    rw [htokd] at htok
    exact absurd htok (by decide)
  obtain ⟨c, v', hvd⟩ : ∃ c v', v.data = c :: v' := by
    cases hvd : v.data with
    | nil => exact absurd hvd hvne
    | cons c v' => exact ⟨c, v', rfl⟩
  have hcws : c.isWhitespace = false := by
    by_cases hw : c.isWhitespace = true
    · have hcl : c.toLower = c := isWhitespace_toLower c hw
      have htd : tok.data = c :: v'.map Char.toLower := by
        rw [← hv', hvd, List.map_cons, hcl]
      have hok := tokens_headOk tok htok
      rw [htd] at hok
      simp [headOk, hw] at hok
    · simpa using hw
  have hdata : (v ++ " " ++ sep ++ " " ++ e).data =
      v.data ++ (' ' :: (sep.data ++ (' ' :: e.data))) := by
    simp [String.data_append]
  have hfull_head : headOk (v ++ " " ++ sep ++ " " ++ e).data = true := by
    rw [hdata, hvd]
    simp [headOk, hcws]
  have hede : e.data ≠ [] := by
    intro h
    rw [h] at hh
    simp [headOk] at hh
  obtain ⟨z, zr, hz⟩ : ∃ z zr, e.data.reverse = z :: zr := by
    cases hzz : e.data.reverse with
    | nil =>
      rw [hzz] at hl
      simp [headOk] at hl
    | cons z zr => exact ⟨z, zr, rfl⟩
  have hfull_last : headOk (v ++ " " ++ sep ++ " " ++ e).data.reverse = true := by
    rw [hdata]
    simp only [List.reverse_append, List.reverse_cons, List.append_assoc, hz]
    rw [hz] at hl
    simp only [headOk] at hl ⊢
    simpa using hl
  have hstrip : pyStrip (v ++ " " ++ sep ++ " " ++ e) = v ++ " " ++ sep ++ " " ++ e :=
    pyStrip_eq_self _ hfull_head hfull_last
  have hboundary : boundaryOk (' ' :: (sep.data ++ (' ' :: e.data))) = true := rfl
  have hpe : pyStrip (String.mk e.data) = e := by
    unfold pyStrip
    rw [show (String.mk e.data).data = e.data from rfl, stripChars_eq_self e.data hh hl, mk_data]
  have hdec : (decide (tok = "true" ∨ tok = "yes" ∨ tok = "1")) =
      ((tok == "true") || (tok == "yes") || (tok == "1")) := by
    by_cases h1 : tok = "true" <;> by_cases h2 : tok = "yes" <;> by_cases h3 : tok = "1" <;>
      simp [h1, h2, h3]
  obtain ⟨z0, zr0, hz0⟩ : ∃ z0 zr0, e.data = z0 :: zr0 := by
    cases hzz : e.data with
    | nil => exact absurd hzz hede
    | cons z0 zr0 => exact ⟨z0, zr0, rfl⟩
  have hz0ws : z0.isWhitespace = false := by
    rw [hz0] at hh
    simpa [headOk] using hh
  have hrem : resultExplanationMatch (v ++ " " ++ sep ++ " " ++ e) =
      some (((tok == "true") || (tok == "yes") || (tok == "1")), e) := by
    unfold resultExplanationMatch
    rw [hdata, hvd, List.cons_append, List.dropWhile_cons, if_neg (by simp [hcws]),
      ← List.cons_append, ← hvd]
    simp only [matchBoolToken_spec tok v.data _ htok hv' hboundary]
    have hdw : List.dropWhile Char.isWhitespace e.data = e.data := by
      rw [hz0, List.dropWhile_cons, if_neg (by simp [hz0ws])]
    have hne' : e.data.isEmpty = false := by
      rw [hz0]
      rfl
    have hnl' : '\n' ∉ e.data := by simpa using hnl
    rcases hsep with rfl | rfl <;>
      simp +decide [List.dropWhile_cons, List.cons_append, List.singleton_append,
        hdw, hne', hnl', hpe, hdec]
  simp only [parse_result_and_explanation_from_field, hstrip, hrem]

/-- C6: Dialect B normalization.  `"true - paper beats rock"` yields
`{won: true, message: "paper beats rock"}`; `"no"` yields
`{won: false, message: ""}`; any casing of the six boolean tokens with
separator "-" or ":" (and a clean nonempty explanation) parses to the
token's truth value with the explanation as message; and unparseable
freeform text falls back to the lenient favorable outcome carrying that
text. -/
theorem C6_dialect_b_normal_form :
    normalizeModelText "true - paper beats rock" = ⟨true, "paper beats rock"⟩ ∧
    normalizeModelText "no" = ⟨false, ""⟩ ∧
    (∀ (tok v sep e : String),
      tok ∈ boolTokens →
      strLower v = tok →
      (sep = "-" ∨ sep = ":") →
      headOk e.data = true →
      headOk e.data.reverse = true →
      e.data.contains '\n' = false →
      parse_result_and_explanation_from_field (Json.str (v ++ " " ++ sep ++ " " ++ e)) =
        Except.ok (((tok == "true") || (tok == "yes") || (tok == "1")), e)) ∧
    parse_result_and_explanation_from_field (Json.str "FALSE:nope") =
      Except.ok (false, "nope") ∧
    normalizeModelText "the move was interesting" =
      ⟨true, "the move was interesting"⟩ := by
  refine ⟨by decide, by decide, parse_field_generic, by rfl, by decide⟩

/-- C6 witness: the generic token clause applied at the concrete input
`"YeS : it works"`. -/
theorem C6_witness :
    ("yes" ∈ boolTokens) ∧
    strLower "YeS" = "yes" ∧
    ((":" : String) = "-" ∨ (":" : String) = ":") ∧
    headOk ("it works" : String).data = true ∧
    headOk ("it works" : String).data.reverse = true ∧
    ("it works" : String).data.contains '\n' = false ∧
    parse_result_and_explanation_from_field
        (Json.str ("YeS" ++ " " ++ ":" ++ " " ++ "it works")) =
      Except.ok ((("yes" : String) == "true" || ("yes" : String) == "yes" ||
        ("yes" : String) == "1"), "it works") :=
  ⟨by decide, by decide, Or.inr rfl, by decide, by decide, by decide,
    C6_dialect_b_normal_form.2.2.1 "yes" "YeS" ":" "it works"
      (by decide) (by decide) (Or.inr rfl) (by decide) (by decide) (by decide)⟩

end TabChain
